import Mathlib

set_option maxHeartbeats 1000000
set_option maxRecDepth 100000

/-!
Shallow embedding of `src/viewer/viewport.go` (package `viewer`), the
scrollable text-viewport component of this repository.

Modelling conventions:
* Go `int` is modelled as `Int` (the values involved are tiny, so machine
  overflow is irrelevant; Go division truncates toward zero, modelled with
  `Int.div`).
* A Go slice expression `l[lo:hi]` panics unless `0 ≤ lo ≤ hi ≤ len(l)`;
  it is modelled by `goSlice`, which returns `none` exactly when Go would
  panic.  `strings.Repeat` panics on a negative count and is modelled by
  `goRepeat` the same way.  Functions that can reach a panicking call
  therefore return `Option _`; `none` means the Go call does not return.
* `strings.Replace(s, "\r\n", "\n", -1)` and `strings.Split(s, "\n")` are
  modelled by the structurally recursive `replaceCRLF` and `splitNL` over
  the character list of the string (Go `Split` with a non-empty separator
  always yields at least one piece; in particular `Split("", "\n") = [""]`).
* `ScrollPercent` works on `float64`; it is modelled exactly over `ℚ`,
  with the IEEE special cases made explicit: a zero divisor yields NaN
  (modelled `none`) when the numerator is 0, and ±Inf (which the
  `math.Min`/`math.Max` clamp maps to 1 resp. 0) otherwise.  The properties
  proved about it (the special cases and the [0,1] clamp) are insensitive
  to floating-point rounding of the division.
* The Bubble Tea glue (`Sync`, the command constructors, `Update`) is the
  host-framework boundary and is outside the modelled core.
-/

namespace Viewer

/-- The viewport state, field for field the Go struct `ViewportModel`. -/
structure ViewportModel where
  Width : Int
  Height : Int
  YOffset : Int
  YPosition : Int
  HighPerformanceRendering : Bool
  lines : List String
  deriving DecidableEq, Repr

/-- Go helper `func min(a, b int) int`. -/
def min (a b : Int) : Int :=
  if a < b then a else b

/-- Go helper `func max(a, b int) int`. -/
def max (a b : Int) : Int :=
  if a > b then a else b

/-- Go helper `func clamp(v, low, high int) int`. -/
def clamp (v low high : Int) : Int :=
  min high (max low v)

/-- Go slice expression `l[lo:hi]`: `none` exactly when Go panics. -/
def goSlice (l : List String) (lo hi : Int) : Option (List String) :=
  if 0 ≤ lo ∧ lo ≤ hi ∧ hi ≤ (l.length : Int) then
    some ((l.take hi.toNat).drop lo.toNat)
  else
    none

/-- Go `strings.Repeat s n`: panics (`none`) on a negative count. -/
def goRepeat (s : String) (n : Int) : Option String :=
  if n < 0 then none else some (String.join (List.replicate n.toNat s))

/-- Go `strings.Replace(s, "\r\n", "\n", -1)` on the character list:
non-overlapping left-to-right replacement of CRLF by LF. -/
def replaceCRLF : List Char → List Char
  | [] => []
  | '\r' :: '\n' :: rest => '\n' :: replaceCRLF rest
  | c :: rest => c :: replaceCRLF rest

/-- Go `strings.Split(s, "\n")` on the character list: the pieces between
occurrences of `'\n'`; always at least one piece. -/
def splitNL : List Char → List (List Char)
  | [] => [[]]
  | '\n' :: rest => [] :: splitNL rest
  | c :: rest =>
    match splitNL rest with
    | [] => [[c]]
    | l :: ls => (c :: l) :: ls

/-- The line buffer `SetContent` installs for a given content string. -/
def setLines (s : String) : List String :=
  (splitNL (replaceCRLF s.data)).map String.mk

/-- `func (m ViewportModel) AtTop() bool`. -/
def AtTop (m : ViewportModel) : Bool :=
  decide (m.YOffset ≤ 0)

/-- `func (m ViewportModel) AtBottom() bool`. -/
def AtBottom (m : ViewportModel) : Bool :=
  decide (m.YOffset ≥ (m.lines.length : Int) - 1 - m.Height)

/-- `func (m ViewportModel) PastBottom() bool`. -/
def PastBottom (m : ViewportModel) : Bool :=
  decide (m.YOffset > (m.lines.length : Int) - 1 - m.Height)

/-- `func (m ViewportModel) ScrollPercent() float64`, modelled over `ℚ`
with the float special cases explicit (see the file header). -/
def ScrollPercent (m : ViewportModel) : Option ℚ :=
  if m.Height ≥ (m.lines.length : Int) then
    some 1
  else
    let d : Int := (m.lines.length : Int) - 1 - m.Height
    if d = 0 then
      if m.YOffset = 0 then none          -- 0.0/0.0 = NaN, kept by Min/Max
      else if 0 < m.YOffset then some 1   -- +Inf, clamped to 1.0
      else some 0                          -- -Inf, clamped to 0.0
    else
      some (Max.max 0 (Min.min 1 ((m.YOffset : ℚ) / (d : ℚ))))

/-- `func (m ViewportModel) visibleLines() (lines []string)`. -/
def visibleLines (m : ViewportModel) : Option (List String) :=
  if 0 < m.lines.length then
    let top := max 0 m.YOffset
    let bottom := clamp (m.YOffset + m.Height) top (m.lines.length : Int)
    goSlice m.lines top bottom
  else
    some []

/-- `func (m *ViewportModel) GotoBottom() (lines []string)`. -/
def GotoBottom (m : ViewportModel) : ViewportModel × Option (List String) :=
  let m' := { m with YOffset := max ((m.lines.length : Int) - 1 - m.Height) 0 }
  if 0 < m'.lines.length then
    let top := m'.YOffset
    let bottom := max ((m'.lines.length : Int) - 1) 0
    (m', goSlice m'.lines top bottom)
  else
    (m', some [])

/-- `func (m *ViewportModel) SetContent(s string)`: `none` when the
`GotoBottom` call inside it panics on its slice expression. -/
def SetContent (m : ViewportModel) (s : String) : Option ViewportModel :=
  let m1 := { m with lines := setLines s }
  if m1.YOffset > (m1.lines.length : Int) - 1 then
    match GotoBottom m1 with
    | (m2, some _) => some m2
    | (_, none) => none
  else
    some m1

/-- `func (m *ViewportModel) ViewDown() []string` ("page down"). -/
def ViewDown (m : ViewportModel) : ViewportModel × Option (List String) :=
  if AtBottom m then (m, some []) else
  let m' := { m with
    YOffset := min (m.YOffset + m.Height) ((m.lines.length : Int) - 1 - m.Height) }
  (m', visibleLines m')

/-- `func (m *ViewportModel) ViewUp() []string` ("page up"). -/
def ViewUp (m : ViewportModel) : ViewportModel × Option (List String) :=
  if AtTop m then (m, some []) else
  let m' := { m with YOffset := max (m.YOffset - m.Height) 0 }
  (m', visibleLines m')

/-- `func (m *ViewportModel) HalfViewDown() (lines []string)`. -/
def HalfViewDown (m : ViewportModel) : ViewportModel × Option (List String) :=
  if AtBottom m then (m, some []) else
  let m' := { m with
    YOffset := min (m.YOffset + m.Height.tdiv 2) ((m.lines.length : Int) - 1 - m.Height) }
  if 0 < m'.lines.length then
    let top := max (m'.YOffset + m'.Height.tdiv 2) 0
    let bottom := clamp (m'.YOffset + m'.Height) top ((m'.lines.length : Int) - 1)
    (m', goSlice m'.lines top bottom)
  else
    (m', some [])

/-- `func (m *ViewportModel) HalfViewUp() (lines []string)`. -/
def HalfViewUp (m : ViewportModel) : ViewportModel × Option (List String) :=
  if AtTop m then (m, some []) else
  let m' := { m with YOffset := max (m.YOffset - m.Height.tdiv 2) 0 }
  if 0 < m'.lines.length then
    let top := max m'.YOffset 0
    let bottom := clamp (m'.YOffset + m'.Height.tdiv 2) top ((m'.lines.length : Int) - 1)
    (m', goSlice m'.lines top bottom)
  else
    (m', some [])

/-- `func (m *ViewportModel) LineDown(n int) (lines []string)`.  Go rebinds
`n` to the capped value before both the offset update and the slice. -/
def LineDown (m : ViewportModel) (n : Int) : ViewportModel × Option (List String) :=
  if AtBottom m ∨ n = 0 then (m, some []) else
  let maxDelta := ((m.lines.length : Int) - 1) - (m.YOffset + m.Height)
  let n' := min n maxDelta
  let m' := { m with
    YOffset := min (m.YOffset + n') ((m.lines.length : Int) - 1 - m.Height) }
  if 0 < m'.lines.length then
    let top := max (m'.YOffset + m'.Height - n') 0
    let bottom := clamp (m'.YOffset + m'.Height) top ((m'.lines.length : Int) - 1)
    (m', goSlice m'.lines top bottom)
  else
    (m', some [])

/-- `func (m *ViewportModel) LineUp(n int) (lines []string)`. -/
def LineUp (m : ViewportModel) (n : Int) : ViewportModel × Option (List String) :=
  if AtTop m ∨ n = 0 then (m, some []) else
  let n' := min n m.YOffset
  let m' := { m with YOffset := max (m.YOffset - n') 0 }
  if 0 < m'.lines.length then
    let top := max 0 m'.YOffset
    let bottom := clamp (m'.YOffset + n') top ((m'.lines.length : Int) - 1)
    (m', goSlice m'.lines top bottom)
  else
    (m', some [])

/-- `func (m *ViewportModel) GotoTop() (lines []string)`. -/
def GotoTop (m : ViewportModel) : ViewportModel × Option (List String) :=
  if AtTop m then (m, some []) else
  let m' := { m with YOffset := 0 }
  if 0 < m'.lines.length then
    let top := m'.YOffset
    let bottom := clamp (m'.YOffset + m'.Height) top ((m'.lines.length : Int) - 1)
    (m', goSlice m'.lines top bottom)
  else
    (m', some [])

/-- `func (m ViewportModel) View() string`: `none` when a `strings.Repeat`
or slice expression inside it panics. -/
def View (m : ViewportModel) : Option String :=
  if m.HighPerformanceRendering then
    goRepeat "\n" (m.Height - 1)
  else
    match visibleLines m with
    | none => none
    | some ls =>
      match (if (ls.length : Int) < m.Height then
               goRepeat "\n" (m.Height - (ls.length : Int))
             else some "") with
      | none => none
      | some extraLines => some (String.intercalate "\n" ls ++ extraLines)

/-- One navigation request, one constructor per navigation method. -/
inductive NavOp where
  | viewDown
  | viewUp
  | halfViewDown
  | halfViewUp
  | lineDown (n : Int)
  | lineUp (n : Int)
  | gotoTop
  | gotoBottom
  deriving DecidableEq, Repr

/-- Dispatch one navigation request to the corresponding method. -/
def applyNav (m : ViewportModel) : NavOp → ViewportModel × Option (List String)
  | .viewDown => ViewDown m
  | .viewUp => ViewUp m
  | .halfViewDown => HalfViewDown m
  | .halfViewUp => HalfViewUp m
  | .lineDown n => LineDown m n
  | .lineUp n => LineUp m n
  | .gotoTop => GotoTop m
  | .gotoBottom => GotoBottom m

/-- The state after one navigation request (the diff is dropped). -/
def navStep (m : ViewportModel) (op : NavOp) : ViewportModel :=
  (applyNav m op).1

/-- The state after a sequence of navigation requests. -/
def runNav (m : ViewportModel) (ops : List NavOp) : ViewportModel :=
  ops.foldl navStep m

/-- A navigation request whose line-count argument (if any) is nonnegative. -/
def NavOp.nonnegArg : NavOp → Bool
  | .lineDown n => decide (0 ≤ n)
  | .lineUp n => decide (0 ≤ n)
  | _ => true

/-- The offset invariant of the spec: `0 ≤ offset ≤ max(0, len(lines)-1-height)`. -/
def goodOffset (m : ViewportModel) : Prop :=
  0 ≤ m.YOffset ∧ m.YOffset ≤ max 0 ((m.lines.length : Int) - 1 - m.Height)

/-- The 100-line numbered content of the spec scenario, lines "1".."k". -/
def mkLines (k : Nat) : List String :=
  (List.range k).map (fun i => Nat.repr (i + 1))

end Viewer

namespace Viewer

theorem min_eq (a b : Int) : min a b = Min.min a b := by
  unfold min; split_ifs <;> omega

theorem max_eq (a b : Int) : max a b = Max.max a b := by
  unfold max; split_ifs <;> omega

theorem clamp_eq (v low high : Int) : clamp v low high = Min.min high (Max.max low v) := by
  unfold clamp; rw [min_eq, max_eq]

theorem atBottom_iff (m : ViewportModel) :
    AtBottom m = true ↔ (m.lines.length : Int) - 1 - m.Height ≤ m.YOffset := by
  simp [AtBottom, ge_iff_le]

theorem atTop_iff (m : ViewportModel) : AtTop m = true ↔ m.YOffset ≤ 0 := by
  simp [AtTop]

theorem navStep_frame (m : ViewportModel) (op : NavOp) :
    (navStep m op).Width = m.Width ∧ (navStep m op).Height = m.Height ∧
    (navStep m op).YPosition = m.YPosition ∧
    (navStep m op).HighPerformanceRendering = m.HighPerformanceRendering ∧
    (navStep m op).lines = m.lines := by
  cases op <;>
    simp only [navStep, applyNav, ViewDown, ViewUp, HalfViewDown, HalfViewUp,
      LineDown, LineUp, GotoTop, GotoBottom] <;>
    split_ifs <;> simp

end Viewer

namespace Viewer

theorem viewDown_goodOffset (m : ViewportModel) (hH : 0 ≤ m.Height)
    (h : goodOffset m) : goodOffset (ViewDown m).1 := by
  obtain ⟨h0, h1⟩ := h
  rw [max_eq] at h1
  unfold ViewDown
  split_ifs with hb
  · exact ⟨h0, by rw [max_eq]; exact h1⟩
  · have hb' : ¬ ((m.lines.length : Int) - 1 - m.Height ≤ m.YOffset) :=
      fun hc => hb ((atBottom_iff m).mpr hc)
    refine ⟨?_, ?_⟩ <;> simp only [min_eq, max_eq] <;> omega

theorem viewUp_goodOffset (m : ViewportModel) (hH : 0 ≤ m.Height)
    (h : goodOffset m) : goodOffset (ViewUp m).1 := by
  obtain ⟨h0, h1⟩ := h
  rw [max_eq] at h1
  unfold ViewUp
  split_ifs with hb
  · exact ⟨h0, by rw [max_eq]; exact h1⟩
  · refine ⟨?_, ?_⟩ <;> simp only [min_eq, max_eq] <;> omega

theorem halfViewDown_goodOffset (m : ViewportModel) (hH : 0 ≤ m.Height)
    (h : goodOffset m) : goodOffset (HalfViewDown m).1 := by
  obtain ⟨h0, h1⟩ := h
  rw [max_eq] at h1
  have ht : 0 ≤ m.Height.tdiv 2 := Int.tdiv_nonneg hH (by norm_num)
  unfold HalfViewDown
  split_ifs with hb
  · exact ⟨h0, by rw [max_eq]; exact h1⟩
  · have hb' : ¬ ((m.lines.length : Int) - 1 - m.Height ≤ m.YOffset) :=
      fun hc => hb ((atBottom_iff m).mpr hc)
    refine ⟨?_, ?_⟩ <;>
      simp only [apply_ite Prod.fst, ite_self, min_eq, max_eq] <;> omega

theorem halfViewUp_goodOffset (m : ViewportModel) (hH : 0 ≤ m.Height)
    (h : goodOffset m) : goodOffset (HalfViewUp m).1 := by
  obtain ⟨h0, h1⟩ := h
  rw [max_eq] at h1
  have ht : 0 ≤ m.Height.tdiv 2 := Int.tdiv_nonneg hH (by norm_num)
  unfold HalfViewUp
  split_ifs with hb
  · exact ⟨h0, by rw [max_eq]; exact h1⟩
  · refine ⟨?_, ?_⟩ <;>
      simp only [apply_ite Prod.fst, ite_self, min_eq, max_eq] <;> omega

theorem lineDown_goodOffset (m : ViewportModel) (n : Int) (hH : 0 ≤ m.Height)
    (hn : 0 ≤ n) (h : goodOffset m) : goodOffset (LineDown m n).1 := by
  obtain ⟨h0, h1⟩ := h
  rw [max_eq] at h1
  unfold LineDown
  split_ifs with hb
  · exact ⟨h0, by rw [max_eq]; exact h1⟩
  · rw [not_or] at hb
    have hb' : ¬ ((m.lines.length : Int) - 1 - m.Height ≤ m.YOffset) :=
      fun hc => hb.1 ((atBottom_iff m).mpr hc)
    refine ⟨?_, ?_⟩ <;>
      simp only [apply_ite Prod.fst, ite_self, min_eq, max_eq] <;> omega

theorem lineUp_goodOffset (m : ViewportModel) (n : Int) (hH : 0 ≤ m.Height)
    (hn : 0 ≤ n) (h : goodOffset m) : goodOffset (LineUp m n).1 := by
  obtain ⟨h0, h1⟩ := h
  rw [max_eq] at h1
  unfold LineUp
  split_ifs with hb
  · exact ⟨h0, by rw [max_eq]; exact h1⟩
  · refine ⟨?_, ?_⟩ <;>
      simp only [apply_ite Prod.fst, ite_self, min_eq, max_eq] <;> omega

theorem gotoTop_goodOffset (m : ViewportModel) (hH : 0 ≤ m.Height)
    (h : goodOffset m) : goodOffset (GotoTop m).1 := by
  obtain ⟨h0, h1⟩ := h
  rw [max_eq] at h1
  unfold GotoTop
  split_ifs with hb
  · exact ⟨h0, by rw [max_eq]; exact h1⟩
  · refine ⟨?_, ?_⟩ <;>
      simp only [apply_ite Prod.fst, ite_self, min_eq, max_eq] <;> omega

theorem gotoBottom_goodOffset (m : ViewportModel) (hH : 0 ≤ m.Height)
    (h : goodOffset m) : goodOffset (GotoBottom m).1 := by
  unfold GotoBottom
  refine ⟨?_, ?_⟩ <;>
    simp only [apply_ite Prod.fst, ite_self, min_eq, max_eq] <;> omega

theorem navStep_goodOffset (m : ViewportModel) (op : NavOp)
    (hH : 0 ≤ m.Height) (h : goodOffset m) (hop : op.nonnegArg = true) :
    goodOffset (navStep m op) := by
  cases op with
  | viewDown => exact viewDown_goodOffset m hH h
  | viewUp => exact viewUp_goodOffset m hH h
  | halfViewDown => exact halfViewDown_goodOffset m hH h
  | halfViewUp => exact halfViewUp_goodOffset m hH h
  | lineDown n =>
    exact lineDown_goodOffset m n hH (by simpa [NavOp.nonnegArg] using hop) h
  | lineUp n =>
    exact lineUp_goodOffset m n hH (by simpa [NavOp.nonnegArg] using hop) h
  | gotoTop => exact gotoTop_goodOffset m hH h
  | gotoBottom => exact gotoBottom_goodOffset m hH h

theorem runNav_goodOffset (m : ViewportModel) (ops : List NavOp)
    (hH : 0 ≤ m.Height) (h : goodOffset m)
    (hops : ∀ op ∈ ops, op.nonnegArg = true) :
    goodOffset (runNav m ops) := by
  induction ops generalizing m with
  | nil => exact h
  | cons op ops ih =>
    have hH' : 0 ≤ (navStep m op).Height := by
      rw [(navStep_frame m op).2.1]; exact hH
    exact ih (navStep m op) hH'
      (navStep_goodOffset m op hH h (hops op (by simp)))
      (fun o ho => hops o (by simp [ho]))

end Viewer

namespace Viewer

/-- C1 (amended): for every starting state whose height is nonnegative and
whose offset already satisfies the invariant (as the initial offset 0 does),
and every sequence of navigation operations (ViewDown, ViewUp, HalfViewDown,
HalfViewUp, LineDown(n), LineUp(n), GotoTop, GotoBottom) whose LineDown /
LineUp arguments are nonnegative, after the sequence runs both
`0 ≤ offset` and `offset ≤ max(0, len(lines)-1-height)` hold.  (Quantifying
over all sequences gives the bound after every intermediate call as well.) -/
theorem viewport_offset_invariant (m : ViewportModel) (ops : List NavOp)
    (hH : 0 ≤ m.Height) (h0 : 0 ≤ m.YOffset)
    (h1 : m.YOffset ≤ max 0 ((m.lines.length : Int) - 1 - m.Height))
    (hops : ∀ op ∈ ops, NavOp.nonnegArg op = true) :
    0 ≤ (runNav m ops).YOffset ∧
      (runNav m ops).YOffset ≤
        max 0 (((runNav m ops).lines.length : Int) - 1 - (runNav m ops).Height) :=
  runNav_goodOffset m ops hH ⟨h0, h1⟩ hops

/-- Witness for C1: the invariant theorem applied at a concrete state
(10 lines, height 3, offset 0) and a concrete mixed navigation sequence. -/
theorem viewport_offset_invariant_witness :
    0 ≤ (runNav ⟨0, 3, 0, 0, false, mkLines 10⟩
          [.lineDown 2, .viewDown, .gotoBottom, .lineUp 1]).YOffset ∧
      (runNav ⟨0, 3, 0, 0, false, mkLines 10⟩
          [.lineDown 2, .viewDown, .gotoBottom, .lineUp 1]).YOffset ≤
        max 0 (((runNav ⟨0, 3, 0, 0, false, mkLines 10⟩
          [.lineDown 2, .viewDown, .gotoBottom, .lineUp 1]).lines.length : Int) - 1 -
          (runNav ⟨0, 3, 0, 0, false, mkLines 10⟩
          [.lineDown 2, .viewDown, .gotoBottom, .lineUp 1]).Height) :=
  viewport_offset_invariant ⟨0, 3, 0, 0, false, mkLines 10⟩
    [.lineDown 2, .viewDown, .gotoBottom, .lineUp 1]
    (by decide) (by decide) (by decide) (by decide)

/-- C1 counterexample: with content of 10 lines set through `SetContent` and
height 3, the sequence LineDown(3); LineDown(-5) drives the offset to -2,
violating `0 ≤ offset`; and with height -5 a single ViewDown from offset 0
drives the offset to -5.  The claim as stated (arbitrary integer n, every
width/height) is therefore false. -/
theorem viewport_offset_invariant_counterexample :
    SetContent ⟨0, 3, 0, 0, false, []⟩ "1\n2\n3\n4\n5\n6\n7\n8\n9\n10"
        = some ⟨0, 3, 0, 0, false, mkLines 10⟩ ∧
      (runNav ⟨0, 3, 0, 0, false, mkLines 10⟩ [.lineDown 3, .lineDown (-5)]).YOffset = -2 ∧
      (runNav ⟨0, -5, 0, 0, false, mkLines 10⟩ [.viewDown]).YOffset = -5 := by
  decide

/-- C10: every navigation operation (ViewDown, ViewUp, HalfViewDown,
HalfViewUp, LineDown, LineUp, GotoTop, GotoBottom) mutates only the YOffset
field: the lines buffer, Width, Height, YPosition and the
HighPerformanceRendering flag are unchanged, for every starting state and
every argument. -/
theorem nav_ops_mutate_only_offset (m : ViewportModel) (op : NavOp) :
    (applyNav m op).1.lines = m.lines ∧ (applyNav m op).1.Width = m.Width ∧
      (applyNav m op).1.Height = m.Height ∧
      (applyNav m op).1.YPosition = m.YPosition ∧
      (applyNav m op).1.HighPerformanceRendering = m.HighPerformanceRendering := by
  obtain ⟨h1, h2, h3, h4, h5⟩ := navStep_frame m op
  exact ⟨h5, h1, h2, h3, h4⟩

end Viewer

namespace Viewer

/-- C6: with content "1".."100" (set through SetContent), height 10 and
offset 0: the first ViewDown ("page down") sets the offset to 10 and returns
exactly lines 10..19 (0-indexed); after ten ViewDown calls in total the
offset is 89 = 100-1-10 and AtBottom() is true; one further ViewDown returns
an empty diff and leaves the offset at 89. -/
theorem pageDown_hundred_lines_scenario :
    SetContent ⟨0, 10, 0, 0, false, []⟩ (String.intercalate "\n" (mkLines 100))
        = some ⟨0, 10, 0, 0, false, mkLines 100⟩ ∧
      (ViewDown ⟨0, 10, 0, 0, false, mkLines 100⟩).1.YOffset = 10 ∧
      (ViewDown ⟨0, 10, 0, 0, false, mkLines 100⟩).2
        = some (((mkLines 100).drop 10).take 10) ∧
      (runNav ⟨0, 10, 0, 0, false, mkLines 100⟩
          (List.replicate 10 .viewDown)).YOffset = 89 ∧
      AtBottom (runNav ⟨0, 10, 0, 0, false, mkLines 100⟩
          (List.replicate 10 .viewDown)) = true ∧
      (ViewDown (runNav ⟨0, 10, 0, 0, false, mkLines 100⟩
          (List.replicate 10 .viewDown))).2 = some [] ∧
      (ViewDown (runNav ⟨0, 10, 0, 0, false, mkLines 100⟩
          (List.replicate 10 .viewDown))).1.YOffset = 89 := by
  decide

/-- C7: for every state, calling ViewUp ("page up") when AtTop() is true
returns an empty diff and leaves the offset unchanged; symmetrically,
calling ViewDown ("page down") when AtBottom() is true returns an empty
diff and leaves the offset unchanged. -/
theorem page_ops_noop_at_boundaries (m : ViewportModel) :
    (AtTop m = true → (ViewUp m).2 = some [] ∧ (ViewUp m).1.YOffset = m.YOffset) ∧
      (AtBottom m = true →
        (ViewDown m).2 = some [] ∧ (ViewDown m).1.YOffset = m.YOffset) := by
  constructor
  · intro h; unfold ViewUp; rw [if_pos h]; exact ⟨rfl, rfl⟩
  · intro h; unfold ViewDown; rw [if_pos h]; exact ⟨rfl, rfl⟩

/-- Witness for C7: the boundary no-op theorem applied at a concrete state
(one line, height 0, offset 0) that is both at the top and at the bottom. -/
theorem page_ops_noop_at_boundaries_witness :
    ((ViewUp ⟨0, 0, 0, 0, false, ["a"]⟩).2 = some [] ∧
        (ViewUp ⟨0, 0, 0, 0, false, ["a"]⟩).1.YOffset =
          (⟨0, 0, 0, 0, false, ["a"]⟩ : ViewportModel).YOffset) ∧
      ((ViewDown ⟨0, 0, 0, 0, false, ["a"]⟩).2 = some [] ∧
        (ViewDown ⟨0, 0, 0, 0, false, ["a"]⟩).1.YOffset =
          (⟨0, 0, 0, 0, false, ["a"]⟩ : ViewportModel).YOffset) :=
  ⟨(page_ops_noop_at_boundaries ⟨0, 0, 0, 0, false, ["a"]⟩).1 (by decide),
   (page_ops_noop_at_boundaries ⟨0, 0, 0, 0, false, ["a"]⟩).2 (by decide)⟩

/-- C2 (code-bug evidence): the state with two lines, height 1, offset 0 is
reachable (SetContent produces it from the initial state), it is NOT caught
by the `height ≥ len(lines)` special case, and ScrollPercent on it computes
0.0/0.0 — IEEE NaN, modelled `none` — which the math.Min/math.Max clamp
propagates, so the result is not a float between 0 and 1: the division by
zero the claim (and the function's own doc comment) rules out does happen
when height = len(lines) - 1. -/
theorem scrollPercent_division_by_zero :
    SetContent ⟨0, 1, 0, 0, false, []⟩ "a\nb" = some ⟨0, 1, 0, 0, false, ["a", "b"]⟩ ∧
      ¬((1 : Int) ≥ (((["a", "b"] : List String)).length : Int)) ∧
      ScrollPercent ⟨0, 1, 0, 0, false, ["a", "b"]⟩ = none := by
  decide

end Viewer

namespace Viewer

theorem setLines_empty : setLines "" = [""] := rfl

theorem setContent_empty_eq (m : ViewportModel) (h0 : 0 ≤ m.YOffset) (hH : 0 ≤ m.Height) :
    SetContent m "" = some { m with lines := [""], YOffset := 0 } := by
  obtain ⟨W, H, Y, P, R, ls⟩ := m
  simp only at h0 hH
  simp only [SetContent, setLines_empty, GotoBottom, goSlice]
  norm_num
  have hmx : max (-H) 0 = 0 := by rw [max_eq]; omega
  have hmx0 : max (0 : Int) 0 = 0 := by rw [max_eq]; omega
  rw [hmx, hmx0]
  norm_num
  omega

theorem visibleLines_single_empty (m : ViewportModel) (hH : 0 ≤ m.Height) :
    visibleLines { m with lines := [""], YOffset := 0 } =
      if 1 ≤ m.Height then some [""] else some [] := by
  obtain ⟨W, H, Y, P, R, ls⟩ := m
  simp only at hH
  by_cases h1 : (1 : Int) ≤ H
  · have hmax : Max.max (0 : Int) (0 + H) = H := by omega
    have hmin : Min.min ((1 : Int)) H = 1 := by omega
    simp [visibleLines, goSlice, clamp_eq, max_eq, min_eq, hmax, hmin, h1]
  · have hH0 : H = 0 := by omega
    subst hH0
    simp [visibleLines, goSlice, clamp_eq, max_eq, min_eq]

theorem splitNL_length_pos (cs : List Char) : 0 < (splitNL cs).length := by
  induction cs with
  | nil => simp [splitNL]
  | cons c rest ih =>
    unfold splitNL
    split
    · simp
    · simp
    · split
      · simp
      · simp

theorem setLines_length_pos (s : String) : 0 < (setLines s).length := by
  have := splitNL_length_pos (replaceCRLF s.data)
  simpa [setLines] using this

/-- C3 (amended): after SetContent with the empty string, from any state
with nonnegative offset and height, the engine holds exactly ONE line — the
empty string — (len(lines) = 1, not 0, because Go's strings.Split always
yields at least one piece), the offset is 0, no fault is signaled, and
visibleLines returns the empty sequence when height = 0 and the single
empty line when height ≥ 1. -/
theorem setContent_empty_one_line (m : ViewportModel)
    (h0 : 0 ≤ m.YOffset) (hH : 0 ≤ m.Height) :
    SetContent m "" = some { m with lines := [""], YOffset := 0 } ∧
      ({ m with lines := [""], YOffset := 0 } : ViewportModel).lines.length = 1 ∧
      visibleLines { m with lines := [""], YOffset := 0 } =
        if 1 ≤ m.Height then some [""] else some [] :=
  ⟨setContent_empty_eq m h0 hH, rfl, visibleLines_single_empty m hH⟩

/-- Witness for C3: the amended theorem applied at the concrete state with
height 1, offset 5 and old content of two lines. -/
theorem setContent_empty_one_line_witness :
    SetContent ⟨0, 1, 5, 0, false, ["x", "y"]⟩ "" =
        some { (⟨0, 1, 5, 0, false, ["x", "y"]⟩ : ViewportModel) with
                lines := [""], YOffset := 0 } ∧
      ({ (⟨0, 1, 5, 0, false, ["x", "y"]⟩ : ViewportModel) with
          lines := [""], YOffset := 0 } : ViewportModel).lines.length = 1 ∧
      visibleLines { (⟨0, 1, 5, 0, false, ["x", "y"]⟩ : ViewportModel) with
          lines := [""], YOffset := 0 } =
        if 1 ≤ (⟨0, 1, 5, 0, false, ["x", "y"]⟩ : ViewportModel).Height then
          some [""] else some [] :=
  setContent_empty_one_line ⟨0, 1, 5, 0, false, ["x", "y"]⟩ (by decide) (by decide)

/-- C3 counterexample: SetContent with the empty string yields a state with
ONE line, whose line count is not 0 and whose visibleLines (height 1) is
the one empty line, not the empty sequence — refuting the claim that the
engine then holds zero lines and VisibleLines returns the empty sequence. -/
theorem setContent_empty_not_zero_lines :
    SetContent ⟨0, 1, 0, 0, false, []⟩ "" = some ⟨0, 1, 0, 0, false, [""]⟩ ∧
      ¬ ((⟨0, 1, 0, 0, false, [""]⟩ : ViewportModel).lines.length = 0) ∧
      ¬ (visibleLines ⟨0, 1, 0, 0, false, [""]⟩ = some []) := by
  decide

theorem visibleLines_isSome (m : ViewportModel)
    (h : m.lines.length = 0 ∨ m.YOffset ≤ (m.lines.length : Int)) :
    ∃ v, visibleLines m = some v := by
  obtain ⟨W, H, Y, P, R, ls⟩ := m
  simp only at h
  simp only [visibleLines, goSlice, clamp_eq, max_eq]
  split_ifs with h1 h2
  · exact ⟨_, rfl⟩
  · exfalso; apply h2; refine ⟨by omega, by omega, by omega⟩
  · exact ⟨[], rfl⟩

/-- C4 (amended): rendering is total on the claimed scope only with
qualifications.  In accelerated (high-performance) mode with height ≥ 1,
View() yields exactly height-1 newline characters.  In standard mode, for
every state whose offset does not exceed the line count (in particular
every offset the navigation operations produce), View() yields the visible
lines joined with newlines and padded with height - len(visible) blank
lines when the visible count is less than height.  Outside this scope View
can panic (see the counterexample). -/
theorem view_total_amended (m : ViewportModel) :
    (m.HighPerformanceRendering = true → 1 ≤ m.Height →
        View m = some (String.join (List.replicate (m.Height - 1).toNat "\n"))) ∧
      (m.HighPerformanceRendering = false →
        (m.lines.length = 0 ∨ m.YOffset ≤ (m.lines.length : Int)) →
        ∃ v, visibleLines m = some v ∧
          View m = some (String.intercalate "\n" v ++
            (if (v.length : Int) < m.Height then
              String.join (List.replicate (m.Height - (v.length : Int)).toNat "\n")
            else ""))) := by
  constructor
  · intro hp hh
    unfold View
    rw [if_pos hp]
    unfold goRepeat
    rw [if_neg (by omega)]
  · intro hp hcond
    obtain ⟨v, hv⟩ := visibleLines_isSome m hcond
    refine ⟨v, hv, ?_⟩
    unfold View
    rw [if_neg (by simp [hp]), hv]
    dsimp only
    by_cases hlt : (v.length : Int) < m.Height
    · rw [if_pos hlt]
      unfold goRepeat
      rw [if_neg (by omega)]
      dsimp only
      rw [if_pos hlt]
    · rw [if_neg hlt]
      dsimp only
      rw [if_neg hlt]

/-- Witness for C4: the amended theorem applied in accelerated mode at
height 3 (two newline characters) and in standard mode at a one-line state
with height 3. -/
theorem view_total_amended_witness :
    View ⟨0, 3, 0, 0, true, []⟩ =
        some (String.join (List.replicate (((3 : Int)) - 1).toNat "\n")) ∧
      (∃ v, visibleLines ⟨0, 3, 0, 0, false, ["a"]⟩ = some v ∧
        View ⟨0, 3, 0, 0, false, ["a"]⟩ = some (String.intercalate "\n" v ++
          (if (v.length : Int) < (3 : Int) then
            String.join (List.replicate ((3 : Int) - (v.length : Int)).toNat "\n")
          else ""))) :=
  ⟨(view_total_amended ⟨0, 3, 0, 0, true, []⟩).1 rfl (by decide),
   (view_total_amended ⟨0, 3, 0, 0, false, ["a"]⟩).2 rfl (by decide)⟩

/-- C4 counterexample: with height 0 in accelerated mode, View() calls
strings.Repeat with count -1, which panics in Go (modelled `none`); and in
standard mode with offset 5 past a 3-line buffer, the visibleLines slice
expression panics.  The claim that View() produces a well-defined string
without failing for every state, including height ≤ 0, is false. -/
theorem view_panics_counterexample :
    View ⟨0, 0, 0, 0, true, []⟩ = none ∧
      View ⟨0, 2, 5, 0, false, ["a", "b", "c"]⟩ = none := by
  decide

/-- C5 (amended): for every prior state with nonnegative height and every
content string, if the new line count leaves the old offset beyond
len(lines)-1, then SetContent returns normally with the offset snapped to
the bottom (the GotoBottom value max(len(lines)-1-height, 0)), and
AtBottom() is true immediately afterwards.  (For negative heights the
GotoBottom call inside SetContent panics on its slice bounds instead — see
the counterexample.) -/
theorem setContent_shrink_snaps_bottom (m : ViewportModel) (s : String)
    (hH : 0 ≤ m.Height)
    (hguard : ((setLines s).length : Int) - 1 < m.YOffset) :
    ∃ m', SetContent m s = some m' ∧ AtBottom m' = true ∧
      m'.YOffset = max ((m'.lines.length : Int) - 1 - m'.Height) 0 := by
  obtain ⟨W, H, Y, P, R, ls⟩ := m
  simp only at hH hguard
  have hlen : (1 : Int) ≤ ((setLines s).length : Int) := by
    exact_mod_cast setLines_length_pos s
  refine ⟨⟨W, H, max (((setLines s).length : Int) - 1 - H) 0, P, R, setLines s⟩,
    ?_, ?_, ?_⟩
  · have hcond : (0 : Int) ≤ max (((setLines s).length : Int) - 1 - H) 0 ∧
        max (((setLines s).length : Int) - 1 - H) 0 ≤
          max (((setLines s).length : Int) - 1) 0 ∧
        max (((setLines s).length : Int) - 1) 0 ≤ ((setLines s).length : Int) := by
      refine ⟨?_, ?_, ?_⟩ <;> simp only [max_eq] <;> omega
    simp only [SetContent]
    rw [if_pos hguard]
    simp only [GotoBottom]
    rw [if_pos (setLines_length_pos s)]
    simp only [goSlice]
    rw [if_pos hcond]
  · rw [atBottom_iff]
    simp only [max_eq]
    omega
  · rfl

/-- Witness for C5: the amended theorem applied with old offset 5, height 0
and new one-line content "a". -/
theorem setContent_shrink_snaps_bottom_witness :
    ∃ m', SetContent ⟨0, 0, 5, 0, false, []⟩ "a" = some m' ∧ AtBottom m' = true ∧
      m'.YOffset = max ((m'.lines.length : Int) - 1 - m'.Height) 0 :=
  setContent_shrink_snaps_bottom ⟨0, 0, 5, 0, false, []⟩ "a" (by decide) (by decide)

/-- C5 counterexample: with height -1 and old offset 5, SetContent "a"
triggers the bottom snap, and the slice expression inside GotoBottom has
bounds [1:0], so the Go call panics (modelled `none`) rather than
returning with AtBottom() true — refuting the claim for every prior
state. -/
theorem setContent_negative_height_panics :
    SetContent ⟨0, -1, 5, 0, false, []⟩ "a" = none := by
  decide

/-- C8: for every state with nonnegative offset not at the bottom and every
n > 0 small enough that LineDown's delta cap n ≤ (len(lines)-1)-(offset+height)
is not triggered (the bottom clamp, LineUp's cap and the top clamp are then
not triggered either), LineDown(n) followed by LineUp(n) restores the
original offset exactly. -/
theorem lineDown_lineUp_roundtrip (m : ViewportModel) (n : Int)
    (hn : 0 < n) (hy : 0 ≤ m.YOffset) (hb : AtBottom m = false)
    (hcap : n ≤ ((m.lines.length : Int) - 1) - (m.YOffset + m.Height)) :
    (LineUp (LineDown m n).1 n).1.YOffset = m.YOffset := by
  obtain ⟨W, H, Y, P, R, ls⟩ := m
  simp only at hy hcap
  have hb' : ¬ ((ls.length : Int) - 1 - H ≤ Y) := by
    intro hc
    have h2 := (atBottom_iff ⟨W, H, Y, P, R, ls⟩).mpr hc
    rw [hb] at h2
    exact Bool.false_ne_true h2
  have hguard1 : ¬ (AtBottom ⟨W, H, Y, P, R, ls⟩ = true ∨ n = 0) := by
    rw [not_or, atBottom_iff]
    exact ⟨hb', by omega⟩
  have hmin1 : min n (((ls.length : Int) - 1) - (Y + H)) = n := by rw [min_eq]; omega
  have hd : (LineDown ⟨W, H, Y, P, R, ls⟩ n).1 = ⟨W, H, Y + n, P, R, ls⟩ := by
    unfold LineDown
    rw [if_neg hguard1]
    simp only [apply_ite Prod.fst, ite_self]
    rw [hmin1]
    have hmin2 : min (Y + n) ((ls.length : Int) - 1 - H) = Y + n := by rw [min_eq]; omega
    rw [hmin2]
  rw [hd]
  have hguard2 : ¬ (AtTop ⟨W, H, Y + n, P, R, ls⟩ = true ∨ n = 0) := by
    rw [not_or, atTop_iff]
    constructor
    · simp only
      omega
    · omega
  have hmin3 : min n (Y + n) = n := by rw [min_eq]; omega
  unfold LineUp
  rw [if_neg hguard2]
  simp only [apply_ite Prod.fst, ite_self]
  rw [hmin3]
  have hmax1 : max (Y + n - n) 0 = Y := by rw [max_eq]; omega
  rw [hmax1]

/-- Witness for C8: the roundtrip theorem applied at offset 1, height 2,
content of 10 lines and n = 2. -/
theorem lineDown_lineUp_roundtrip_witness :
    (LineUp (LineDown ⟨0, 2, 1, 0, false, mkLines 10⟩ 2).1 2).1.YOffset =
      (⟨0, 2, 1, 0, false, mkLines 10⟩ : ViewportModel).YOffset :=
  lineDown_lineUp_roundtrip ⟨0, 2, 1, 0, false, mkLines 10⟩ 2
    (by decide) (by decide) (by decide) (by decide)

/-- C9: for every state with 0 ≤ height < len(lines) and an offset in the
clamped range 0 ≤ offset ≤ len(lines)-1-height (every offset the navigation
operations produce), visibleLines() is exactly a window carved out of the
lines with the final one removed (dropLast), so the last content line never
appears in the visible slice: it is unreachable by scrolling. -/
theorem visibleLines_never_last_line (m : ViewportModel)
    (hH : 0 ≤ m.Height) (hlen : m.Height < (m.lines.length : Int))
    (h0 : 0 ≤ m.YOffset) (h1 : m.YOffset ≤ (m.lines.length : Int) - 1 - m.Height) :
    visibleLines m =
      some ((m.lines.dropLast.drop m.YOffset.toNat).take m.Height.toNat) := by
  obtain ⟨W, H, Y, P, R, ls⟩ := m
  simp only at hH hlen h0 h1
  have hmax : max 0 Y = Y := by rw [max_eq]; omega
  have hclamp : clamp (Y + H) Y (ls.length : Int) = Y + H := by rw [clamp_eq]; omega
  simp only [visibleLines]
  rw [if_pos (by omega : 0 < ls.length)]
  rw [hmax, hclamp]
  simp only [goSlice]
  rw [if_pos ⟨by omega, by omega, by omega⟩]
  congr 1
  obtain ⟨y, rfl⟩ : ∃ y : Nat, Y = (y : Int) := ⟨Y.toNat, by omega⟩
  obtain ⟨h, rfl⟩ : ∃ h : Nat, H = (h : Int) := ⟨H.toNat, by omega⟩
  have hyh : ((y : Int) + h).toNat = y + h := by omega
  rw [hyh, Int.toNat_natCast, Int.toNat_natCast]
  rw [List.dropLast_eq_take, List.drop_take, List.drop_take, List.take_take]
  have hsum : y + h - y = h := by omega
  rw [hsum]
  have hm : Min.min h (ls.length - 1 - y) = h := by omega
  rw [hm]

/-- Witness for C9: the theorem applied at offset 1, height 1 and three
lines — the visible window is ["b"], carved from dropLast ["a", "b"]. -/
theorem visibleLines_never_last_line_witness :
    visibleLines ⟨0, 1, 1, 0, false, ["a", "b", "c"]⟩ =
      some ((((["a", "b", "c"] : List String)).dropLast.drop ((1 : Int)).toNat).take
        ((1 : Int)).toNat) :=
  visibleLines_never_last_line ⟨0, 1, 1, 0, false, ["a", "b", "c"]⟩
    (by decide) (by decide) (by decide) (by decide)

end Viewer
